import Mathlib

/-!
Shallow embedding of the Account REST service (`service/routes.py`) and of the
persistence layer it consumes.  The route handlers are translated directly from
`service/routes.py`; the `Account` model (`service/models.py`) and the error
handlers that turn raised validation errors into HTTP responses are not part of
the sources and are modelled from the specification, as marked in their doc
comments.
-/

namespace AccountService

/-- JSON values as far as this service inspects them. -/
inductive Json where
  | null : Json
  | str : String → Json
  | num : Int → Json
  | obj : List (String × Json) → Json
  | arr : List Json → Json

/-- Field lookup on a JSON object; `none` on any other JSON shape
(mirrors Python's `data["key"]` raising on non-dicts / missing keys). -/
def Json.lookup : Json → String → Option Json
  | .obj fields, k => fields.lookup k
  | _, _ => none

/-- The mutable attributes of an Account (everything except the
server-assigned `id`): `name`, `email`, `address`, `phone_number`,
`date_joined`. -/
structure AccountData where
  name : String
  email : String
  address : String
  phone_number : String
  date_joined : String
deriving DecidableEq, Repr

/-- A persisted Account: a server-assigned identifier plus its data. -/
structure Account where
  id : Int
  data : AccountData
deriving DecidableEq, Repr

/-- Modelled from the spec: the persistence layer's storage, owning all live
Accounts and identity assignment ("the persistence layer owns storage and
identity assignment").  `nextId` is the next fresh identifier. -/
structure DB where
  accounts : List Account
  nextId : Int
deriving DecidableEq, Repr

def DB.empty : DB := ⟨[], 0⟩

/-- Well-formedness of the storage: every live identifier is below `nextId`,
so freshly assigned identifiers are "unique across all live Accounts and
never reused after deletion" (spec §3). -/
def DB.wf (db : DB) : Prop := ∀ a ∈ db.accounts, a.id < db.nextId

/-- Modelled from the spec: persistence `create(record) -> record_with_id`
(missing `service/models.py`): assigns the fresh identifier and inserts one
record. -/
def DB.createAccount (db : DB) (d : AccountData) : Account × DB :=
  let a : Account := ⟨db.nextId, d⟩
  (a, ⟨db.accounts ++ [a], db.nextId + 1⟩)

/-- Whether a stored Account's identifier equals the identifier value taken
from a request body; a non-numeric identifier matches nothing. -/
def idMatches (a : Account) (v : Json) : Bool :=
  match v with
  | .num i => a.id == i
  | _ => false

/-- Modelled from the spec: persistence `find(id) -> record | absent`
(missing `service/models.py`).  The identifier arrives as a JSON value from
the request body. -/
def DB.findAccount (db : DB) (v : Json) : Option Account :=
  db.accounts.find? (fun a => idMatches a v)

/-- Modelled from the spec: persistence `all() -> sequence of record`
(missing `service/models.py`). -/
def DB.allAccounts (db : DB) : List Account := db.accounts

/-- Modelled from the spec: persistence `update(record)` (missing
`service/models.py`): overwrites the stored record carrying the same
identifier. -/
def DB.updateAccount (db : DB) (a : Account) : DB :=
  ⟨db.accounts.map (fun b => if b.id = a.id then a else b), db.nextId⟩

/-- Modelled from the spec: persistence `delete(record)` (missing
`service/models.py`): removes the record with the given identifier. -/
def DB.deleteAccount (db : DB) (i : Int) : DB :=
  ⟨db.accounts.filter (fun a => decide (¬ a.id = i)), db.nextId⟩

/-- Modelled from the spec: the current date used to default `date_joined`
("defaulted at creation if not supplied"), kept abstract as a fixed value. -/
def todayDate : String := "2024-01-01"

/-- Looks a key up in a JSON object and requires a string value. -/
def Json.getStr (j : Json) (k : String) : Option String :=
  match j.lookup k with
  | some (.str s) => some s
  | _ => none

/-- Modelled from the spec: `Account.deserialize` of the missing
`service/models.py`.  "Body must deserialize into a valid Account record type
(wrong type/missing required fields → error)"; `date_joined` is "defaulted at
creation if not supplied"; `id` is never taken from the body ("server-generated
unique identifier, immutable after creation"). -/
def deserialize (j : Json) : Except String AccountData :=
  match j.getStr "name", j.getStr "email", j.getStr "address",
      j.getStr "phone_number" with
  | some n, some e, some a, some p =>
    match j.lookup "date_joined" with
    | none => .ok ⟨n, e, a, p, todayDate⟩
    | some (.str d) => .ok ⟨n, e, a, p, d⟩
    | some _ => .error "Invalid Account: bad type for date_joined"
  | _, _, _, _ => .error "Invalid Account: missing or bad required field"

/-- Modelled from the spec: `Account.serialize` of the missing
`service/models.py`: the Account "fully serialized" as a JSON object,
including its `id`. -/
def Account.serialize (a : Account) : Json :=
  .obj [("id", .num a.id), ("name", .str a.data.name),
        ("email", .str a.data.email), ("address", .str a.data.address),
        ("phone_number", .str a.data.phone_number),
        ("date_joined", .str a.data.date_joined)]

/-- An HTTP request as the handlers see it: the declared `Content-Type`
header (`none` when absent) and the parsed JSON body. -/
structure Request where
  content_type : Option String
  body : Json

/-- An HTTP response: status code, body, and the `Location` header when set. -/
structure Response where
  status : Nat
  body : Json
  location : Option String

/-- Embeds `check_content_type("application/json")` from `service/routes.py`:
`if content_type and content_type == media_type: return` — the check passes
only when the header is present, non-empty (Python truthiness) and equal to
`application/json`; otherwise the request is aborted with 415. -/
def contentTypeOk (req : Request) : Bool :=
  match req.content_type with
  | some ct => (!(ct == "")) && (ct == "application/json")
  | none => false

/-- The 415 response produced by `check_content_type`'s `abort`. -/
def resp415 : Response :=
  ⟨415, .str "Content-Type must be application/json", none⟩

/-- Embeds `request.get_json()["id"]`: the lookup raises on a non-object body
or a missing key; modelled from the spec, the raised error is surfaced as a
validation error ("malformed/incomplete JSON body … surfaced to the client as
HTTP 400", the error handlers being outside the sources). -/
def getId (j : Json) : Except String Json :=
  match j.lookup "id" with
  | some v => .ok v
  | none => .error "Invalid request: missing id"

/-- Embeds `health` (`service/routes.py`): constant OK payload, HTTP 200. -/
def health (db : DB) : Response × DB :=
  (⟨200, .obj [("status", .str "OK")], none⟩, db)

/-- Embeds `index` (`service/routes.py`): static service metadata, HTTP 200. -/
def index (db : DB) : Response × DB :=
  (⟨200, .obj [("name", .str "Account REST API Service"),
               ("version", .str "1.0")], none⟩, db)

/-- Embeds `create_accounts` (`service/routes.py`): content-type check, then
deserialize the body (a failure becomes HTTP 400 via the modelled error
handler), then persist and answer 201 with the serialized Account and a
`Location` header of `"/"`. -/
def create_accounts (db : DB) (req : Request) : Response × DB :=
  if contentTypeOk req then
    match deserialize req.body with
    | .error msg => (⟨400, .str msg, none⟩, db)
    | .ok d =>
      let (a, db') := db.createAccount d
      (⟨201, a.serialize, some "/"⟩, db')
  else (resp415, db)

/-- Embeds `read_all_accounts` (`service/routes.py`): serializes every stored
Account into a JSON array, HTTP 200; no content-type check on this route. -/
def read_all_accounts (db : DB) : Response × DB :=
  (⟨200, .arr ((DB.allAccounts db).map Account.serialize), none⟩, db)

/-- Embeds `read_account` (`service/routes.py`): content-type check, take
`id` from the body, look the Account up; absent → 404, else 200 with the
serialized Account. -/
def read_account (db : DB) (req : Request) : Response × DB :=
  if contentTypeOk req then
    match getId req.body with
    | .error msg => (⟨400, .str msg, none⟩, db)
    | .ok v =>
      match db.findAccount v with
      | none => (⟨404, .str "The account cannot be found", none⟩, db)
      | some a => (⟨200, a.serialize, none⟩, db)
  else (resp415, db)

/-- Embeds `update_account` (`service/routes.py`): content-type check, find by
the body's `id` (absent → 404), deserialize the body over the found Account
(its `id` is untouched) and persist, answering 200 with the updated Account
serialized. -/
def update_account (db : DB) (req : Request) : Response × DB :=
  if contentTypeOk req then
    match getId req.body with
    | .error msg => (⟨400, .str msg, none⟩, db)
    | .ok v =>
      match db.findAccount v with
      | none => (⟨404, .str "The account cannot be found", none⟩, db)
      | some a =>
        match deserialize req.body with
        | .error msg => (⟨400, .str msg, none⟩, db)
        | .ok d =>
          let a' : Account := ⟨a.id, d⟩
          (⟨200, a'.serialize, none⟩, db.updateAccount a')
  else (resp415, db)

/-- Embeds `delete_account` (`service/routes.py`): content-type check, find by
the body's `id`, delete only when found, and answer 204 with an empty body in
either case. -/
def delete_account (db : DB) (req : Request) : Response × DB :=
  if contentTypeOk req then
    match getId req.body with
    | .error msg => (⟨400, .str msg, none⟩, db)
    | .ok v =>
      match db.findAccount v with
      | none => (⟨204, .str "", none⟩, db)
      | some a => (⟨204, .str "", none⟩, db.deleteAccount a.id)
  else (resp415, db)

/-- A request with a JSON `Content-Type` and a body carrying only an `id`. -/
def jsonIdReq (i : Int) : Request :=
  ⟨some "application/json", .obj [("id", .num i)]⟩

/-- A request with a JSON `Content-Type` and the given payload as body. -/
def jsonReq (p : Json) : Request :=
  ⟨some "application/json", p⟩

/-- A sample valid creation payload (the spec's scenario example). -/
def samplePayload : Json :=
  .obj [("name", .str "Alice"), ("email", .str "a@x.com"),
        ("address", .str "1 Main St"), ("phone_number", .str "555-1111")]

theorem contentTypeOk_of_json (req : Request)
    (h : req.content_type = some "application/json") :
    contentTypeOk req = true := by
  simp [contentTypeOk, h]

theorem contentTypeOk_eq_false (req : Request)
    (h : req.content_type ≠ some "application/json") :
    contentTypeOk req = false := by
  unfold contentTypeOk
  cases hc : req.content_type with
  | none => rfl
  | some ct =>
    have hne : ct ≠ "application/json" := by
      intro he; exact h (hc.trans (by rw [he]))
    simp [hne]

/-- C4: for every create, read-one, update, or delete request whose
`Content-Type` header is absent or is any value other than
`application/json`, the operation responds with HTTP 415, regardless of the
validity of the body. -/
theorem content_type_gate_415 (db : DB) (req : Request)
    (h : req.content_type ≠ some "application/json") :
    (create_accounts db req).1.status = 415 ∧
    (read_account db req).1.status = 415 ∧
    (update_account db req).1.status = 415 ∧
    (delete_account db req).1.status = 415 := by
  have hf := contentTypeOk_eq_false req h
  refine ⟨?_, ?_, ?_, ?_⟩ <;>
    simp [create_accounts, read_account, update_account, delete_account,
      hf, resp415]

/-- Witness for C4 at a concrete request with `Content-Type: test/html`
carrying a perfectly valid body. -/
theorem content_type_gate_415_witness :
    ((⟨some "test/html", samplePayload⟩ : Request).content_type ≠
        some "application/json") ∧
    ((create_accounts DB.empty ⟨some "test/html", samplePayload⟩).1.status = 415 ∧
     (read_account DB.empty ⟨some "test/html", samplePayload⟩).1.status = 415 ∧
     (update_account DB.empty ⟨some "test/html", samplePayload⟩).1.status = 415 ∧
     (delete_account DB.empty ⟨some "test/html", samplePayload⟩).1.status = 415) :=
  ⟨by decide, content_type_gate_415 DB.empty ⟨some "test/html", samplePayload⟩
    (by decide)⟩

/-- C9: the read-one, list-all and health operations leave the storage
unchanged in every case (including the 404 and 415 and 400 branches of
read-one). -/
theorem reads_leave_storage_unchanged (db : DB) (req : Request) :
    (read_account db req).2 = db ∧
    (read_all_accounts db).2 = db ∧
    (health db).2 = db := by
  refine ⟨?_, rfl, rfl⟩
  unfold read_account
  split
  · cases hq : getId req.body with
    | error msg => rfl
    | ok v => cases hf : db.findAccount v with
      | none => simp [hf]
      | some a => simp [hf]
  · rfl

/-- C10: every successful (201) create response carries the constant
`Location` header `"/"`, never a reference to the new resource's id. -/
theorem create_location_is_root (db : DB) (req : Request)
    (h : (create_accounts db req).1.status = 201) :
    (create_accounts db req).1.location = some "/" := by
  unfold create_accounts at h ⊢
  by_cases hct : contentTypeOk req = true
  · rw [if_pos hct] at h ⊢
    cases hd : deserialize req.body with
    | error msg => rw [hd] at h; simp at h
    | ok d => rfl
  · rw [if_neg hct] at h
    simp [resp415] at h

/-- Witness for C10 at a concrete successful create request. -/
theorem create_location_is_root_witness :
    (create_accounts DB.empty (jsonReq samplePayload)).1.status = 201 ∧
    (create_accounts DB.empty (jsonReq samplePayload)).1.location = some "/" :=
  ⟨by decide, create_location_is_root DB.empty (jsonReq samplePayload) (by decide)⟩

/-- C2: on an identifier matching no stored Account, read-one and update
both answer 404 while delete answers 204 (and removes nothing). -/
theorem not_found_consistency (db : DB) (req : Request) (v : Json)
    (hct : req.content_type = some "application/json")
    (hid : getId req.body = .ok v)
    (hfind : db.findAccount v = none) :
    (read_account db req).1.status = 404 ∧
    (update_account db req).1.status = 404 ∧
    (delete_account db req).1.status = 204 ∧
    (delete_account db req).2 = db := by
  have hc := contentTypeOk_of_json req hct
  refine ⟨?_, ?_, ?_, ?_⟩ <;>
    simp [read_account, update_account, delete_account, hc, hid, hfind]

/-- Witness for C2: identifier 5 on empty storage. -/
theorem not_found_consistency_witness :
    ((jsonIdReq 5).content_type = some "application/json" ∧
     getId (jsonIdReq 5).body = .ok (.num 5) ∧
     DB.empty.findAccount (.num 5) = none) ∧
    ((read_account DB.empty (jsonIdReq 5)).1.status = 404 ∧
     (update_account DB.empty (jsonIdReq 5)).1.status = 404 ∧
     (delete_account DB.empty (jsonIdReq 5)).1.status = 204 ∧
     (delete_account DB.empty (jsonIdReq 5)).2 = DB.empty) :=
  ⟨⟨rfl, rfl, rfl⟩,
   not_found_consistency DB.empty (jsonIdReq 5) (.num 5) rfl rfl rfl⟩

theorem delete_account_response (db : DB) (i : Int) :
    (delete_account db (jsonIdReq i)).1 = ⟨204, .str "", none⟩ := by
  have hred : delete_account db (jsonIdReq i) =
      (match db.findAccount (.num i) with
       | none => (⟨204, .str "", none⟩, db)
       | some a => (⟨204, .str "", none⟩, db.deleteAccount a.id)) := rfl
  rw [hred]
  cases db.findAccount (.num i) <;> rfl

theorem delete_account_state (db : DB) (i : Int) :
    (delete_account db (jsonIdReq i)).2 =
      ⟨db.accounts.filter (fun a => decide (¬ a.id = i)), db.nextId⟩ := by
  have hred : delete_account db (jsonIdReq i) =
      (match db.findAccount (.num i) with
       | none => (⟨204, .str "", none⟩, db)
       | some a => (⟨204, .str "", none⟩, db.deleteAccount a.id)) := rfl
  rw [hred]
  cases hf : db.findAccount (.num i) with
  | none =>
    have hall : ∀ a ∈ db.accounts, ¬ a.id = i := by
      intro a ha he
      have := List.find?_eq_none.mp hf a ha
      simp [idMatches, he] at this
    have hself : db.accounts.filter (fun a => decide (¬ a.id = i)) = db.accounts :=
      List.filter_eq_self.mpr (fun a ha => by simpa using hall a ha)
    show db = ⟨db.accounts.filter (fun a => decide (¬ a.id = i)), db.nextId⟩
    rw [hself]
  | some a =>
    have hai : a.id = i := by
      have := List.find?_some hf
      simpa [idMatches] using this
    show db.deleteAccount a.id = ⟨db.accounts.filter (fun a => decide (¬ a.id = i)), db.nextId⟩
    rw [hai]
    rfl

theorem findAccount_filter_self (l : List Account) (n : Int) (i : Int) :
    DB.findAccount ⟨l.filter (fun a => decide (¬ a.id = i)), n⟩ (.num i) = none := by
  apply List.find?_eq_none.mpr
  intro a ha
  have h2 : ¬ a.id = i := by simpa using (List.mem_filter.mp ha).2
  simp [idMatches, h2]

/-- C5: deleting the same identifier twice returns HTTP 204 with an empty
body both times (the second call does not error), and after either call the
Account with that identifier is absent from storage. -/
theorem delete_idempotent (db : DB) (i : Int) :
    (delete_account db (jsonIdReq i)).1.status = 204 ∧
    (delete_account db (jsonIdReq i)).1.body = .str "" ∧
    (delete_account (delete_account db (jsonIdReq i)).2 (jsonIdReq i)).1.status = 204 ∧
    (delete_account (delete_account db (jsonIdReq i)).2 (jsonIdReq i)).1.body = .str "" ∧
    (delete_account db (jsonIdReq i)).2.findAccount (.num i) = none ∧
    (delete_account (delete_account db (jsonIdReq i)).2 (jsonIdReq i)).2.findAccount (.num i) = none := by
  refine ⟨?_, ?_, ?_, ?_, ?_, ?_⟩
  · rw [delete_account_response]
  · rw [delete_account_response]
  · rw [delete_account_response]
  · rw [delete_account_response]
  · rw [delete_account_state]
    exact findAccount_filter_self _ _ _
  · rw [delete_account_state]
    exact findAccount_filter_self _ _ _

/-- The state after a create on a request with valid content type and body. -/
theorem create_route_state (db : DB) (req : Request) (d : AccountData)
    (hct : req.content_type = some "application/json")
    (hde : deserialize req.body = .ok d) :
    (create_accounts db req).2 = ⟨db.accounts ++ [⟨db.nextId, d⟩], db.nextId + 1⟩ := by
  have hc := contentTypeOk_of_json req hct
  unfold create_accounts
  rw [if_pos hc]
  simp only [hde]
  rfl

/-- The response of a create on a request with valid content type and body. -/
theorem create_route_response (db : DB) (req : Request) (d : AccountData)
    (hct : req.content_type = some "application/json")
    (hde : deserialize req.body = .ok d) :
    (create_accounts db req).1 =
      ⟨201, Account.serialize ⟨db.nextId, d⟩, some "/"⟩ := by
  have hc := contentTypeOk_of_json req hct
  unfold create_accounts
  rw [if_pos hc]
  simp only [hde]
  rfl

/-- C7: a valid create request answers HTTP 201 with the persisted Account
(including its newly assigned id) as body, sets a `Location` header, and
inserts exactly one record into storage. -/
theorem create_success (db : DB) (req : Request) (d : AccountData)
    (hct : req.content_type = some "application/json")
    (hde : deserialize req.body = .ok d) :
    (create_accounts db req).1.status = 201 ∧
    (create_accounts db req).1.body = Account.serialize ⟨db.nextId, d⟩ ∧
    ((create_accounts db req).1.body).lookup "id" = some (.num db.nextId) ∧
    (create_accounts db req).1.location.isSome = true ∧
    (create_accounts db req).2.accounts = db.accounts ++ [⟨db.nextId, d⟩] ∧
    (create_accounts db req).2.accounts.length = db.accounts.length + 1 := by
  have hc := contentTypeOk_of_json req hct
  have hred : create_accounts db req =
      (⟨201, Account.serialize ⟨db.nextId, d⟩, some "/"⟩,
       ⟨db.accounts ++ [⟨db.nextId, d⟩], db.nextId + 1⟩) := by
    unfold create_accounts
    rw [if_pos hc]
    simp only [hde]
    rfl
  rw [hred]
  exact ⟨rfl, rfl, rfl, rfl, rfl, by simp⟩

/-- Witness for C7: creating the sample payload on empty storage. -/
theorem create_success_witness :
    ((jsonReq samplePayload).content_type = some "application/json" ∧
     deserialize (jsonReq samplePayload).body =
       .ok ⟨"Alice", "a@x.com", "1 Main St", "555-1111", todayDate⟩) ∧
    ((create_accounts DB.empty (jsonReq samplePayload)).1.status = 201 ∧
     (create_accounts DB.empty (jsonReq samplePayload)).1.body =
       Account.serialize ⟨0, ⟨"Alice", "a@x.com", "1 Main St", "555-1111", todayDate⟩⟩ ∧
     ((create_accounts DB.empty (jsonReq samplePayload)).1.body).lookup "id" =
       some (.num 0) ∧
     (create_accounts DB.empty (jsonReq samplePayload)).1.location.isSome = true ∧
     (create_accounts DB.empty (jsonReq samplePayload)).2.accounts =
       [⟨0, ⟨"Alice", "a@x.com", "1 Main St", "555-1111", todayDate⟩⟩] ∧
     (create_accounts DB.empty (jsonReq samplePayload)).2.accounts.length = 0 + 1) :=
  ⟨⟨rfl, rfl⟩, create_success DB.empty (jsonReq samplePayload)
    ⟨"Alice", "a@x.com", "1 Main St", "555-1111", todayDate⟩ rfl rfl⟩

/-- C6: an update whose body carries the id of an existing Account answers
HTTP 200 with the updated Account serialized, overwrites all mutable fields
from the body, persists the result, and leaves every identifier unchanged. -/
theorem update_overwrites (db : DB) (req : Request) (v : Json) (a : Account)
    (d : AccountData)
    (hct : req.content_type = some "application/json")
    (hid : getId req.body = .ok v)
    (hfind : db.findAccount v = some a)
    (hde : deserialize req.body = .ok d) :
    (update_account db req).1.status = 200 ∧
    (update_account db req).1.body = Account.serialize ⟨a.id, d⟩ ∧
    (update_account db req).2 = db.updateAccount ⟨a.id, d⟩ ∧
    (update_account db req).2.accounts.map Account.id =
      db.accounts.map Account.id ∧
    (⟨a.id, d⟩ : Account) ∈ (update_account db req).2.accounts := by
  have hc := contentTypeOk_of_json req hct
  have hmem : a ∈ db.accounts := List.mem_of_find?_eq_some hfind
  have hred : update_account db req =
      (⟨200, Account.serialize ⟨a.id, d⟩, none⟩, db.updateAccount ⟨a.id, d⟩) := by
    unfold update_account
    rw [if_pos hc]
    simp only [hid, hfind, hde]
  rw [hred]
  refine ⟨rfl, rfl, rfl, ?_, ?_⟩
  · simp only [DB.updateAccount, List.map_map]
    apply List.map_congr_left
    intro b _
    by_cases hb : b.id = a.id <;> simp [hb]
  · simp only [DB.updateAccount]
    exact List.mem_map.mpr ⟨a, hmem, by simp⟩

/-- A one-account storage used by concrete witnesses. -/
def oneAccountDB : DB :=
  ⟨[⟨0, ⟨"Alice", "a@x.com", "1 Main St", "555-1111", todayDate⟩⟩], 1⟩

/-- An update payload carrying id 0 and a full set of new field values. -/
def updatePayload : Json :=
  .obj [("id", .num 0), ("name", .str "Jake"), ("email", .str "j@x.com"),
        ("address", .str "2 Main St"), ("phone_number", .str "555-0001"),
        ("date_joined", .str "2020-05-05")]

/-- Witness for C6: updating the stored account 0 with new field values. -/
theorem update_overwrites_witness :
    ((jsonReq updatePayload).content_type = some "application/json" ∧
     getId (jsonReq updatePayload).body = .ok (.num 0) ∧
     oneAccountDB.findAccount (.num 0) =
       some ⟨0, ⟨"Alice", "a@x.com", "1 Main St", "555-1111", todayDate⟩⟩ ∧
     deserialize (jsonReq updatePayload).body =
       .ok ⟨"Jake", "j@x.com", "2 Main St", "555-0001", "2020-05-05"⟩) ∧
    ((update_account oneAccountDB (jsonReq updatePayload)).1.status = 200 ∧
     (update_account oneAccountDB (jsonReq updatePayload)).1.body =
       Account.serialize ⟨0, ⟨"Jake", "j@x.com", "2 Main St", "555-0001", "2020-05-05"⟩⟩ ∧
     (update_account oneAccountDB (jsonReq updatePayload)).2 =
       oneAccountDB.updateAccount ⟨0, ⟨"Jake", "j@x.com", "2 Main St", "555-0001", "2020-05-05"⟩⟩ ∧
     (update_account oneAccountDB (jsonReq updatePayload)).2.accounts.map Account.id =
       oneAccountDB.accounts.map Account.id ∧
     (⟨0, ⟨"Jake", "j@x.com", "2 Main St", "555-0001", "2020-05-05"⟩⟩ : Account) ∈
       (update_account oneAccountDB (jsonReq updatePayload)).2.accounts) :=
  ⟨⟨rfl, rfl, rfl, rfl⟩,
   update_overwrites oneAccountDB (jsonReq updatePayload) (.num 0)
     ⟨0, ⟨"Alice", "a@x.com", "1 Main St", "555-1111", todayDate⟩⟩
     ⟨"Jake", "j@x.com", "2 Main St", "555-0001", "2020-05-05"⟩ rfl rfl rfl rfl⟩

/-- A creation payload missing required fields (the test suite's
`{"name": "not enough data"}`). -/
def badPayload : Json := .obj [("name", .str "not enough data")]

/-- C3: a request whose JSON body is malformed or type-incompatible (missing
required fields, wrong value types) is answered with HTTP 400 carrying an
error message, and the failure happens during deserialization before any
persistence call: the storage is left exactly as it was. -/
theorem validation_before_persistence (db : DB) (req : Request)
    (hct : req.content_type = some "application/json") :
    (∀ msg, deserialize req.body = .error msg →
      (create_accounts db req).1.status = 400 ∧
      (create_accounts db req).1.body = .str msg ∧
      (create_accounts db req).2 = db) ∧
    (∀ msg, getId req.body = .error msg →
      ((read_account db req).1.status = 400 ∧
       (read_account db req).1.body = .str msg ∧
       (read_account db req).2 = db) ∧
      ((update_account db req).1.status = 400 ∧
       (update_account db req).1.body = .str msg ∧
       (update_account db req).2 = db) ∧
      ((delete_account db req).1.status = 400 ∧
       (delete_account db req).1.body = .str msg ∧
       (delete_account db req).2 = db)) ∧
    (∀ msg v a, getId req.body = .ok v → db.findAccount v = some a →
      deserialize req.body = .error msg →
      (update_account db req).1.status = 400 ∧
      (update_account db req).1.body = .str msg ∧
      (update_account db req).2 = db) := by
  have hc := contentTypeOk_of_json req hct
  refine ⟨?_, ?_, ?_⟩
  · intro msg hmsg
    have hred : create_accounts db req = (⟨400, .str msg, none⟩, db) := by
      unfold create_accounts; rw [if_pos hc]; simp only [hmsg]
    rw [hred]; exact ⟨rfl, rfl, rfl⟩
  · intro msg hmsg
    have h1 : read_account db req = (⟨400, .str msg, none⟩, db) := by
      unfold read_account; rw [if_pos hc]; simp only [hmsg]
    have h2 : update_account db req = (⟨400, .str msg, none⟩, db) := by
      unfold update_account; rw [if_pos hc]; simp only [hmsg]
    have h3 : delete_account db req = (⟨400, .str msg, none⟩, db) := by
      unfold delete_account; rw [if_pos hc]; simp only [hmsg]
    rw [h1, h2, h3]
    exact ⟨⟨rfl, rfl, rfl⟩, ⟨rfl, rfl, rfl⟩, ⟨rfl, rfl, rfl⟩⟩
  · intro msg v a hv hfind hmsg
    have hred : update_account db req = (⟨400, .str msg, none⟩, db) := by
      unfold update_account; rw [if_pos hc]; simp only [hv, hfind, hmsg]
    rw [hred]; exact ⟨rfl, rfl, rfl⟩

/-- Witness for C3: the incomplete payload from the test suite gets 400 from
every operation and leaves the empty storage untouched. -/
theorem validation_before_persistence_witness :
    ((jsonReq badPayload).content_type = some "application/json") ∧
    deserialize (jsonReq badPayload).body =
      .error "Invalid Account: missing or bad required field" ∧
    getId (jsonReq badPayload).body = .error "Invalid request: missing id" ∧
    ((create_accounts DB.empty (jsonReq badPayload)).1.status = 400 ∧
     (create_accounts DB.empty (jsonReq badPayload)).2 = DB.empty) ∧
    ((read_account DB.empty (jsonReq badPayload)).1.status = 400 ∧
     (read_account DB.empty (jsonReq badPayload)).2 = DB.empty) ∧
    ((update_account DB.empty (jsonReq badPayload)).1.status = 400 ∧
     (update_account DB.empty (jsonReq badPayload)).2 = DB.empty) ∧
    ((delete_account DB.empty (jsonReq badPayload)).1.status = 400 ∧
     (delete_account DB.empty (jsonReq badPayload)).2 = DB.empty) := by
  obtain ⟨h1, h2, h3⟩ := validation_before_persistence DB.empty (jsonReq badPayload) rfl
  have hc := h1 _ rfl
  have hg := h2 _ rfl
  exact ⟨rfl, rfl, rfl, ⟨hc.1, hc.2.2⟩, ⟨hg.1.1, hg.1.2.2⟩,
    ⟨hg.2.1.1, hg.2.1.2.2⟩, ⟨hg.2.2.1, hg.2.2.2.2⟩⟩

theorem getStr_some (P : Json) (k s : String) (h : P.getStr k = some s) :
    P.lookup k = some (.str s) := by
  unfold Json.getStr at h
  cases hl : P.lookup k with
  | none => rw [hl] at h; simp at h
  | some v =>
    rw [hl] at h
    cases v with
    | str t => simp at h; rw [h]
    | null => simp at h
    | num n => simp at h
    | obj f => simp at h
    | arr l => simp at h

/-- Inverts a successful deserialization: every field of the produced record
comes from the corresponding key of the payload, and `date_joined` is either
the payload's value or the creation-time default. -/
theorem deserialize_ok_fields (P : Json) (d : AccountData)
    (h : deserialize P = .ok d) :
    P.lookup "name" = some (.str d.name) ∧
    P.lookup "email" = some (.str d.email) ∧
    P.lookup "address" = some (.str d.address) ∧
    P.lookup "phone_number" = some (.str d.phone_number) ∧
    ((P.lookup "date_joined" = none ∧ d.date_joined = todayDate) ∨
     P.lookup "date_joined" = some (.str d.date_joined)) := by
  unfold deserialize at h
  cases h1 : P.getStr "name" with
  | none => rw [h1] at h; simp at h
  | some n =>
  cases h2 : P.getStr "email" with
  | none => rw [h1, h2] at h; simp at h
  | some e =>
  cases h3 : P.getStr "address" with
  | none => rw [h1, h2, h3] at h; simp at h
  | some a =>
  cases h4 : P.getStr "phone_number" with
  | none => rw [h1, h2, h3, h4] at h; simp at h
  | some p =>
  rw [h1, h2, h3, h4] at h
  cases h5 : P.lookup "date_joined" with
  | none =>
    rw [h5] at h
    simp only [Except.ok.injEq] at h
    subst h
    exact ⟨getStr_some P _ _ h1, getStr_some P _ _ h2, getStr_some P _ _ h3,
      getStr_some P _ _ h4, Or.inl ⟨rfl, rfl⟩⟩
  | some v =>
    rw [h5] at h
    cases v with
    | str t =>
      simp only [Except.ok.injEq] at h
      subst h
      exact ⟨getStr_some P _ _ h1, getStr_some P _ _ h2, getStr_some P _ _ h3,
        getStr_some P _ _ h4, Or.inr rfl⟩
    | null => simp at h
    | num m => simp at h
    | obj f => simp at h
    | arr l => simp at h

/-- Looking up a freshly inserted Account by its new identifier succeeds when
every pre-existing identifier is below `nextId`. -/
theorem findAccount_append_fresh (db : DB) (d : AccountData) (hwf : db.wf) :
    DB.findAccount ⟨db.accounts ++ [⟨db.nextId, d⟩], db.nextId + 1⟩
      (.num db.nextId) = some ⟨db.nextId, d⟩ := by
  unfold DB.findAccount
  show (db.accounts ++ [(⟨db.nextId, d⟩ : Account)]).find?
      (fun a => idMatches a (.num db.nextId)) = some (⟨db.nextId, d⟩ : Account)
  rw [List.find?_append]
  have h1 : db.accounts.find? (fun a => idMatches a (.num db.nextId)) = none := by
    apply List.find?_eq_none.mpr
    intro a ha
    have := hwf a ha
    simp only [idMatches]
    intro hid
    rw [beq_iff_eq] at hid
    omega
  rw [h1]
  simp [List.find?, idMatches]

/-- C1: creating a valid payload `P` (carrying no id) and then reading back
the identifier assigned by create answers HTTP 200 with a record equal to
`P` on every field, with the server-assigned `id` added, and with
`date_joined` defaulted exactly when `P` omits it. -/
theorem create_read_roundtrip (db : DB) (P : Json) (d : AccountData)
    (hwf : db.wf) (_hnoid : P.lookup "id" = none)
    (hde : deserialize P = .ok d) :
    (create_accounts db (jsonReq P)).1.status = 201 ∧
    (read_account (create_accounts db (jsonReq P)).2 (jsonIdReq db.nextId)).1.status = 200 ∧
    (read_account (create_accounts db (jsonReq P)).2 (jsonIdReq db.nextId)).1.body =
      Account.serialize ⟨db.nextId, d⟩ ∧
    ((read_account (create_accounts db (jsonReq P)).2 (jsonIdReq db.nextId)).1.body).lookup "name" =
      P.lookup "name" ∧
    ((read_account (create_accounts db (jsonReq P)).2 (jsonIdReq db.nextId)).1.body).lookup "email" =
      P.lookup "email" ∧
    ((read_account (create_accounts db (jsonReq P)).2 (jsonIdReq db.nextId)).1.body).lookup "address" =
      P.lookup "address" ∧
    ((read_account (create_accounts db (jsonReq P)).2 (jsonIdReq db.nextId)).1.body).lookup "phone_number" =
      P.lookup "phone_number" ∧
    ((read_account (create_accounts db (jsonReq P)).2 (jsonIdReq db.nextId)).1.body).lookup "id" =
      some (.num db.nextId) ∧
    (P.lookup "date_joined" = none →
      ((read_account (create_accounts db (jsonReq P)).2 (jsonIdReq db.nextId)).1.body).lookup "date_joined" =
        some (.str todayDate)) ∧
    (∀ s, P.lookup "date_joined" = some (.str s) →
      ((read_account (create_accounts db (jsonReq P)).2 (jsonIdReq db.nextId)).1.body).lookup "date_joined" =
        some (.str s)) := by
  obtain ⟨hn, he, ha, hp, hdj⟩ := deserialize_ok_fields P d hde
  have hstate := create_route_state db (jsonReq P) d rfl hde
  have hstatus : (create_accounts db (jsonReq P)).1.status = 201 := by
    rw [create_route_response db (jsonReq P) d rfl hde]
  have hfind : ((create_accounts db (jsonReq P)).2).findAccount (.num db.nextId) =
      some ⟨db.nextId, d⟩ := by
    rw [hstate]
    exact findAccount_append_fresh db d hwf
  have hread : read_account (create_accounts db (jsonReq P)).2 (jsonIdReq db.nextId) =
      (⟨200, Account.serialize ⟨db.nextId, d⟩, none⟩, (create_accounts db (jsonReq P)).2) := by
    unfold read_account
    rw [if_pos (by rfl)]
    have hgid : getId (jsonIdReq db.nextId).body = .ok (.num db.nextId) := rfl
    simp only [hgid, hfind]
  rw [hread]
  refine ⟨hstatus, rfl, rfl, ?_, ?_, ?_, ?_, rfl, ?_, ?_⟩
  · rw [hn]; rfl
  · rw [he]; rfl
  · rw [ha]; rfl
  · rw [hp]; rfl
  · intro hnone
    rcases hdj with ⟨_, hd⟩ | hsome
    · rw [← hd]; rfl
    · rw [hnone] at hsome; cases hsome
  · intro s hs
    rcases hdj with ⟨hnone, _⟩ | hsome
    · rw [hnone] at hs; cases hs
    · rw [hs] at hsome
      have : d.date_joined = s := by
        injection hsome with h
        injection h with h
        exact h.symm
      rw [← this]; rfl

/-- Witness for C1: creating the sample payload on empty storage then
reading back id 0. -/
theorem create_read_roundtrip_witness :
    (DB.empty.wf ∧ samplePayload.lookup "id" = none ∧
     deserialize samplePayload =
       .ok ⟨"Alice", "a@x.com", "1 Main St", "555-1111", todayDate⟩) ∧
    ((create_accounts DB.empty (jsonReq samplePayload)).1.status = 201 ∧
     (read_account (create_accounts DB.empty (jsonReq samplePayload)).2
        (jsonIdReq 0)).1.status = 200 ∧
     (read_account (create_accounts DB.empty (jsonReq samplePayload)).2
        (jsonIdReq 0)).1.body =
       Account.serialize ⟨0, ⟨"Alice", "a@x.com", "1 Main St", "555-1111", todayDate⟩⟩) := by
  have h := create_read_roundtrip DB.empty samplePayload
    ⟨"Alice", "a@x.com", "1 Main St", "555-1111", todayDate⟩
    (fun a ha => absurd ha (List.not_mem_nil a)) rfl rfl
  exact ⟨⟨fun a ha => absurd ha (List.not_mem_nil a), rfl, rfl⟩,
    h.1, h.2.1, h.2.2.1⟩

/-- Running the create route over a list of payloads, threading storage. -/
def runCreates (db : DB) (ps : List Json) : DB :=
  ps.foldl (fun s p => (create_accounts s (jsonReq p)).2) db

/-- Running the delete route over a list of identifiers, threading storage. -/
def runDeletes (db : DB) (ids : List Int) : DB :=
  ids.foldl (fun s i => (delete_account s (jsonIdReq i)).2) db

theorem step_wf_nodup (db : DB) (d : AccountData) (hwf : db.wf)
    (hnd : (db.accounts.map Account.id).Nodup) :
    (⟨db.accounts ++ [⟨db.nextId, d⟩], db.nextId + 1⟩ : DB).wf ∧
    (((db.accounts ++ [(⟨db.nextId, d⟩ : Account)]).map Account.id).Nodup) := by
  constructor
  · intro a ha
    rcases List.mem_append.mp ha with h | h
    · have := hwf a h
      show a.id < db.nextId + 1
      omega
    · rw [List.mem_singleton] at h
      subst h
      show db.nextId < db.nextId + 1
      omega
  · rw [List.map_append]
    apply List.Nodup.append hnd (by simp)
    intro x hx hy
    obtain ⟨a, ha, hid⟩ := List.mem_map.mp hx
    have := hwf a ha
    simp at hy
    omega

theorem runCreates_props (ps : List Json) :
    ∀ db : DB, db.wf → (db.accounts.map Account.id).Nodup →
    (∀ p ∈ ps, ∃ d, deserialize p = .ok d) →
    (runCreates db ps).wf ∧
    ((runCreates db ps).accounts.map Account.id).Nodup ∧
    (runCreates db ps).accounts.length = db.accounts.length + ps.length := by
  induction ps with
  | nil =>
    intro db hwf hnd _
    exact ⟨hwf, hnd, by simp [runCreates]⟩
  | cons p ps ih =>
    intro db hwf hnd hval
    obtain ⟨d, hd⟩ := hval p (by simp)
    have hstep := create_route_state db (jsonReq p) d rfl hd
    have hrun : runCreates db (p :: ps) =
        runCreates ⟨db.accounts ++ [⟨db.nextId, d⟩], db.nextId + 1⟩ ps := by
      show runCreates (create_accounts db (jsonReq p)).2 ps = _
      rw [hstep]
    rw [hrun]
    obtain ⟨hwf', hnd'⟩ := step_wf_nodup db d hwf hnd
    have hres := ih _ hwf' hnd' (fun q hq => hval q (by simp [hq]))
    refine ⟨hres.1, hres.2.1, ?_⟩
    rw [hres.2.2]
    simp
    omega

theorem filter_id_eq_self (l : List Account) (i : Int)
    (h : ∀ a ∈ l, a.id ≠ i) :
    l.filter (fun a => decide (¬ a.id = i)) = l :=
  List.filter_eq_self.mpr (fun a ha => by simpa using h a ha)

theorem length_filter_id_erase (l : List Account) (i : Int)
    (hnd : (l.map Account.id).Nodup) (hmem : ∃ a ∈ l, a.id = i) :
    (l.filter (fun a => decide (¬ a.id = i))).length = l.length - 1 := by
  induction l with
  | nil => simp at hmem
  | cons b l ih =>
    rw [List.map_cons, List.nodup_cons] at hnd
    by_cases hb : b.id = i
    · have hrest : ∀ a ∈ l, a.id ≠ i := by
        intro a ha hai
        exact hnd.1 (by rw [hb, ← hai]; exact List.mem_map_of_mem Account.id ha)
      rw [List.filter_cons]
      have hbf : (decide (¬ b.id = i)) = false := by simp [hb]
      rw [hbf, filter_id_eq_self l i hrest]
      simp
    · rw [List.filter_cons]
      have hbt : (decide (¬ b.id = i)) = true := by simp [hb]
      rw [hbt]
      obtain ⟨a, ha, hai⟩ := hmem
      have ha' : a ∈ l := by
        rcases List.mem_cons.mp ha with rfl | hm
        · exact absurd hai hb
        · exact hm
      have hpos : 0 < l.length := List.length_pos.mpr (by rintro rfl; cases ha')
      rw [if_pos rfl]
      simp only [List.length_cons]
      rw [ih hnd.2 ⟨a, ha', hai⟩]
      omega

theorem runDeletes_props (ids : List Int) :
    ∀ db : DB, (db.accounts.map Account.id).Nodup → ids.Nodup →
    (∀ i ∈ ids, ∃ a ∈ db.accounts, a.id = i) →
    (runDeletes db ids).accounts.length = db.accounts.length - ids.length ∧
    (∀ a ∈ (runDeletes db ids).accounts, a ∈ db.accounts) := by
  induction ids with
  | nil =>
    intro db _ _ _
    exact ⟨by simp [runDeletes], fun a ha => by simpa [runDeletes] using ha⟩
  | cons i ids ih =>
    intro db hnd hndi hmem
    have hstep : runDeletes db (i :: ids) =
        runDeletes ⟨db.accounts.filter (fun a => decide (¬ a.id = i)), db.nextId⟩ ids := by
      show runDeletes (delete_account db (jsonIdReq i)).2 ids = _
      rw [delete_account_state]
    rw [hstep]
    rw [List.nodup_cons] at hndi
    have hsub : (db.accounts.filter (fun a => decide (¬ a.id = i))).Sublist db.accounts :=
      List.filter_sublist db.accounts
    have hnd' : ((db.accounts.filter (fun a => decide (¬ a.id = i))).map Account.id).Nodup :=
      (hsub.map Account.id).nodup hnd
    have hmem' : ∀ j ∈ ids,
        ∃ a ∈ db.accounts.filter (fun a => decide (¬ a.id = i)), a.id = j := by
      intro j hj
      obtain ⟨a, ha, haj⟩ := hmem j (by simp [hj])
      refine ⟨a, List.mem_filter.mpr ⟨ha, ?_⟩, haj⟩
      have hji : j ≠ i := by
        intro he
        exact hndi.1 (he ▸ hj)
      simp [haj, hji]
    obtain ⟨hlen, hsubm⟩ :=
      ih ⟨db.accounts.filter (fun a => decide (¬ a.id = i)), db.nextId⟩ hnd' hndi.2 hmem'
    constructor
    · rw [hlen, length_filter_id_erase db.accounts i hnd (hmem i (by simp))]
      simp only [List.length_cons]
      omega
    · intro a ha
      exact hsub.subset (hsubm a ha)

/-- C8: list-all answers HTTP 200 with a JSON array of every stored Account
fully serialized (and leaves storage unchanged); empty storage yields the
empty array; and after creating N valid accounts from empty storage and then
deleting M distinct ones of them, the listed array contains exactly N − M
records, each one a previously created record. -/
theorem list_completeness (ps : List Json) (ids : List Int)
    (hval : ∀ p ∈ ps, ∃ d, deserialize p = .ok d)
    (hnd : ids.Nodup)
    (hmem : ∀ i ∈ ids, ∃ a ∈ (runCreates DB.empty ps).accounts, a.id = i) :
    (∀ db : DB, (read_all_accounts db).1.status = 200 ∧
      (read_all_accounts db).1.body = .arr (db.accounts.map Account.serialize) ∧
      (read_all_accounts db).2 = db) ∧
    (read_all_accounts DB.empty).1.body = .arr [] ∧
    (read_all_accounts (runDeletes (runCreates DB.empty ps) ids)).1.body =
      .arr ((runDeletes (runCreates DB.empty ps) ids).accounts.map Account.serialize) ∧
    (runDeletes (runCreates DB.empty ps) ids).accounts.length =
      ps.length - ids.length ∧
    (∀ a ∈ (runDeletes (runCreates DB.empty ps) ids).accounts,
      a ∈ (runCreates DB.empty ps).accounts) := by
  have hempty : DB.empty.wf := fun a ha => absurd ha (List.not_mem_nil a)
  have hnd0 : (DB.empty.accounts.map Account.id).Nodup := by
    show (List.map Account.id []).Nodup
    simp
  obtain ⟨hwf1, hnd1, hlen1⟩ := runCreates_props ps DB.empty hempty hnd0 hval
  obtain ⟨hlen2, hsub⟩ := runDeletes_props ids (runCreates DB.empty ps) hnd1 hnd hmem
  refine ⟨fun db => ⟨rfl, rfl, rfl⟩, rfl, rfl, ?_, hsub⟩
  rw [hlen2, hlen1]
  show ((List.length []) + ps.length) - ids.length = ps.length - ids.length
  simp

/-- Witness for C8: create two accounts from empty storage, delete the one
with id 0, and the listing holds exactly 2 − 1 records. -/
theorem list_completeness_witness :
    deserialize samplePayload =
      .ok ⟨"Alice", "a@x.com", "1 Main St", "555-1111", todayDate⟩ ∧
    ([(0 : Int)].Nodup) ∧
    (read_all_accounts DB.empty).1.body = .arr [] ∧
    (runDeletes (runCreates DB.empty [samplePayload, samplePayload]) [0]).accounts.length =
      2 - 1 := by
  have h := list_completeness [samplePayload, samplePayload] [0]
    (by
      intro p hp
      rcases List.mem_cons.mp hp with rfl | hp'
      · exact ⟨_, rfl⟩
      · rcases List.mem_singleton.mp hp' with rfl
        exact ⟨_, rfl⟩)
    (by simp)
    (by decide)
  exact ⟨rfl, by simp, h.2.1, h.2.2.2.1⟩

end AccountService
